import Mathlib

/-!
Verification of the Rocket.Chat SDK driver (src/lib/driver.ts) against its
specification. The driver's operations are shallowly embedded: promise
settlements become Except values or explicit Option settlements, the
event-driven connect logic becomes a step function over fired events, and
module-level mutable state (the subscription array, the method-cache buckets)
becomes explicit state passing. The method-cache module itself is not part of
the provided sources, so it is modelled from the specification where needed.
-/

-- ===========================================================================
-- Method cache (src/lib/methodCache.ts is not among the provided sources).
-- ===========================================================================

/-- Modelled from the spec: a cache entry of a method bucket, spec section 3
(CacheEntry: key, promise-or-value, insertedAt) plus the touch time the LRU
ordering contract of get/put requires (spec section 4.1). The promise-or-value
is modelled as a promise identifier (a Nat naming the underlying promise). -/
structure CacheEntry where
  key : String
  promise : Nat
  insertedAt : Nat
  touchedAt : Nat
deriving DecidableEq

/-- Modelled from the spec: a MethodCacheBucket (spec section 3): capacity,
maxAgeMs, and a recency-ordered entry list (most recently used first). -/
structure MCBucket where
  capacity : Nat
  maxAgeMs : Nat
  entries : List CacheEntry
deriving DecidableEq

/-- Modelled from the spec: the method-cache module state: registered buckets
keyed by method name, a supply of fresh promise identifiers, and the log of
underlying remote invocations actually issued (method, key). -/
structure MCState where
  buckets : List (String × MCBucket)
  nextPromise : Nat
  remoteLog : List (String × String)
deriving DecidableEq

/-- The empty method-cache state, before any bucket is registered. -/
def mcInit : MCState := { buckets := [], nextPromise := 0, remoteLog := [] }

/-- Modelled from the spec: create(methodName, policy) registers a bucket;
re-registering the same name replaces its policy and clears its entries
(spec section 4.1). -/
def mcCreate (st : MCState) (name : String) (capacity maxAgeMs : Nat) : MCState :=
  { st with buckets :=
      (name, { capacity := capacity, maxAgeMs := maxAgeMs, entries := [] }) ::
        st.buckets.filter (fun q => q.fst != name) }

/-- Modelled from the spec: has(methodName) is true iff a bucket is registered
for that name (spec section 4.1). -/
def mcHas (st : MCState) (name : String) : Bool :=
  (st.buckets.find? (fun q => q.fst == name)).isSome

/-- Modelled from the spec: an entry older than maxAgeMs is treated as absent
on lookup (spec section 4.1, lazy expiry). -/
def entryFresh (e : CacheEntry) (maxAgeMs now : Nat) : Bool :=
  now - e.insertedAt ≤ maxAgeMs

/-- Modelled from the spec: get(method, key) returns the entry if present and
not expired; a hit touches the entry, promoting it to most-recent (spec
section 4.1). Returns the touched entry and the bucket after the touch. -/
def bucketGet (b : MCBucket) (key : String) (now : Nat) : Option (CacheEntry × MCBucket) :=
  match b.entries.find? (fun e => e.key == key) with
  | none => none
  | some e =>
      if entryFresh e b.maxAgeMs now then
        let touched : CacheEntry := { e with touchedAt := now }
        some (touched, { b with entries := touched :: b.entries.filter (fun e2 => e2.key != key) })
      else none

/-- Modelled from the spec: put(method, key, promise) inserts or overwrites an
entry with the current timestamp; if the bucket then exceeds capacity, the
least-recently-used entry (the last of the recency-ordered list) is evicted
(spec section 4.1). -/
def bucketPut (b : MCBucket) (key : String) (pid now : Nat) : MCBucket :=
  { b with entries :=
      if b.capacity <
          ({ key := key, promise := pid, insertedAt := now, touchedAt := now } ::
            b.entries.filter (fun e => e.key != key)).length then
        ({ key := key, promise := pid, insertedAt := now, touchedAt := now } ::
          b.entries.filter (fun e => e.key != key)).dropLast
      else
        { key := key, promise := pid, insertedAt := now, touchedAt := now } ::
          b.entries.filter (fun e => e.key != key) }

/-- Replace the bucket registered under the given name. -/
def setBucket (st : MCState) (name : String) (b : MCBucket) : MCState :=
  { st with buckets := st.buckets.map (fun q => if q.fst == name then (name, b) else q) }

/-- Modelled from the spec: call(method, key) — on a fresh hit returns the
cached promise (touching the entry); on a miss issues the remote invocation
with key as its single argument, stores the still-pending promise itself as
the entry before it settles, and returns it (spec section 4.1). The spec does
not define call for an unregistered method; that case is modelled as an
uncached remote invocation and is not relied on by any theorem. -/
def mcCall (st : MCState) (method key : String) (now : Nat) : Nat × MCState :=
  match st.buckets.find? (fun q => q.fst == method) with
  | none =>
      (st.nextPromise,
        { st with nextPromise := st.nextPromise + 1,
                  remoteLog := st.remoteLog ++ [(method, key)] })
  | some q =>
      match bucketGet q.snd key now with
      | some r => (r.fst.promise, setBucket st method r.snd)
      | none =>
          let pid := st.nextPromise
          (pid,
            { setBucket st method (bucketPut q.snd key pid now) with
                nextPromise := pid + 1,
                remoteLog := st.remoteLog ++ [(method, key)] })

/-- Iterate mcCall n times for the same method, key and instant, collecting the
promise identifier each caller receives. This models n concurrent callers
dispatched before any settlement occurs. -/
def mcCallN : Nat → MCState → String → String → Nat → List Nat × MCState
  | 0, st, _, _, _ => ([], st)
  | n + 1, st, m, k, now =>
      let r := mcCall st m k now
      let rest := mcCallN n r.snd m k now
      (r.fst :: rest.fst, rest.snd)

-- ===========================================================================
-- Call dispatcher (driver.ts lines 141-206).
-- ===========================================================================

/-- setupMethodCache (driver.ts lines 141-155): registers the three cache
buckets with their default policies (the environment overrides absent):
room caches max 10 entries, maxAge 300000 ms; the direct-message room cache
max 10 entries, maxAge 100000 ms. -/
def setupMethodCache (st : MCState) : MCState :=
  mcCreate
    (mcCreate (mcCreate st "getRoomIdByNameOrId" 10 300000) "getRoomNameById" 10 300000)
    "createDirectMessage" 10 100000

/-- The underlying call a callMethod dispatch resolves to: a direct asyncCall
or a routing through the method cache via cacheCall. -/
inductive DispatchTarget where
  | async (name : String) (params : List String)
  | cached (name : String) (params : List String)
deriving DecidableEq

/-- callMethod (driver.ts lines 183-187), verbatim branch structure: if
methodCache.has(name) then asyncCall(name, params) else cacheCall(name,
params). -/
def callMethod (st : MCState) (name : String) (params : List String) : DispatchTarget :=
  if mcHas st name then DispatchTarget.async name params
  else DispatchTarget.cached name params

/-- A log entry written by the driver while running a call chain. -/
inductive LogEntry where
  | info (method : String) (params : List String)
  | errorLog (method : String) (err : String)
  | debugLog (method : String) (detailed : Bool)
deriving DecidableEq

/-- A settled promise chain value together with the log entries the chain
wrote: the shallow embedding of a .catch/.then pipeline. -/
abbrev PChain (α : Type) := Except String α × List LogEntry

/-- JS promise .then(onFulfilled): on a fulfilled input runs the continuation,
on a rejected input propagates the rejection unchanged. -/
def pThen {α β : Type} (x : PChain α) (f : α → PChain β) : PChain β :=
  match x with
  | (Except.ok v, l) => let r := f v; (r.fst, l ++ r.snd)
  | (Except.error e, l) => (Except.error e, l)

/-- JS promise .catch(onRejected): on a rejected input runs the handler, on a
fulfilled input passes the value through unchanged. -/
def pCatch {α : Type} (x : PChain α) (f : String → PChain α) : PChain α :=
  match x with
  | (Except.ok v, l) => (Except.ok v, l)
  | (Except.error e, l) => let r := f e; (r.fst, l ++ r.snd)

/-- asyncCall (driver.ts lines 162-176): casts a lone parameter to an array,
logs the invocation, runs the transport call (its settlement supplied as
applyResult), and chains .catch (log the error, then rethrow the same error)
then .then (log success, branching on result truthiness, and return the
result). -/
def asyncCall {α : Type} (truthy : α → Bool) (method : String) (params : String ⊕ List String)
    (applyResult : Except String α) : PChain α :=
  let params' : List String :=
    match params with
    | Sum.inl p => [p]
    | Sum.inr l => l
  pThen
    (pCatch (applyResult, [LogEntry.info method params'])
      (fun e => (Except.error e, [LogEntry.errorLog method e])))
    (fun result => (Except.ok result, [LogEntry.debugLog method (truthy result)]))

/-- cacheCall (driver.ts lines 194-206): runs methodCache.call (its settlement
supplied as mcResult) and chains .catch (log the error, then rethrow the same
error) then .then (log success and return the result). -/
def cacheCall {α : Type} (truthy : α → Bool) (method : String)
    (mcResult : Except String α) : PChain α :=
  pThen
    (pCatch (mcResult, [])
      (fun e => (Except.error e, [LogEntry.errorLog method e])))
    (fun result => (Except.ok result, [LogEntry.debugLog method (truthy result)]))

-- ===========================================================================
-- Connection lifecycle (driver.ts lines 92-132).
-- ===========================================================================

/-- The error message connect's timeout produces (driver.ts line 112). -/
def connectTimeoutError : String := "Asteroid connection timeout"

/-- How a promise settled, for promises whose resolved value is unit-like. -/
inductive PromiseSettle where
  | resolvedOk
  | rejectedWith (e : String)
deriving DecidableEq

/-- JS resolve: settles the promise with a value unless it already settled. -/
def pResolve (p : Option PromiseSettle) : Option PromiseSettle :=
  match p with
  | none => some PromiseSettle.resolvedOk
  | some s => some s

/-- JS reject: settles the promise with an error unless it already settled. -/
def pReject (e : String) (p : Option PromiseSettle) : Option PromiseSettle :=
  match p with
  | none => some (PromiseSettle.rejectedWith e)
  | some s => some s

/-- An event that can fire after connect has wired its handlers: the transport
emits connected, or the rejection timer fires. -/
inductive ConnEvent where
  | transportConnected
  | timerFire
deriving DecidableEq

/-- The observable state of one connect call: whether a callback was supplied,
every callback invocation made (its error-first argument; none stands for the
JS null), the settlement of the returned promise (none while pending), the
events emitted on the driver lifecycle stream, whether the timer is still
armed, whether the events.once listener is still armed, and whether
clearTimeout was invoked on a still-armed timer. -/
structure ConnState where
  hasCallback : Bool
  callbackCalls : List (Option String)
  promiseResult : Option PromiseSettle
  emitted : List String
  timerActive : Bool
  onceArmed : Bool
  timerCleared : Bool
deriving DecidableEq

/-- The state connect leaves behind after wiring handlers (driver.ts lines
92-122): timer armed, the events.once connected listener armed, the promise
pending, nothing emitted. -/
def connInit (hasCallback : Bool) : ConnState :=
  { hasCallback := hasCallback
    callbackCalls := []
    promiseResult := none
    emitted := []
    timerActive := true
    onceArmed := true
    timerCleared := false }

/-- One event firing against connect's handlers. timerFire runs the timer body
(driver.ts lines 109-114): callback gets the timeout error when supplied,
otherwise the promise rejects. transportConnected runs the asteroid connected
handler (line 106), which re-emits connected on the driver event stream, which
triggers the events.once listener (lines 115-121): clear the timer, invoke the
callback with null when supplied, and resolve the promise. -/
def connStep (st : ConnState) : ConnEvent → ConnState
  | ConnEvent.timerFire =>
      if st.timerActive then
        let st1 := { st with timerActive := false }
        if st1.hasCallback then
          { st1 with callbackCalls := st1.callbackCalls ++ [some connectTimeoutError] }
        else
          { st1 with promiseResult := pReject connectTimeoutError st1.promiseResult }
      else st
  | ConnEvent.transportConnected =>
      let st1 := { st with emitted := st.emitted ++ ["connected"] }
      if st1.onceArmed then
        let st2 :=
          { st1 with
              onceArmed := false
              timerCleared := st1.timerActive || st1.timerCleared
              timerActive := false }
        let st3 :=
          if st2.hasCallback then { st2 with callbackCalls := st2.callbackCalls ++ [none] }
          else st2
        { st3 with promiseResult := pResolve st3.promiseResult }
      else st1

/-- Run one connect call (with or without a completion callback) against the
sequence of events that fire after it. -/
def runConnect (hasCallback : Bool) (evs : List ConnEvent) : ConnState :=
  evs.foldl connStep (connInit hasCallback)

-- ===========================================================================
-- Subscription manager (driver.ts lines 245-298).
-- ===========================================================================

/-- A side effect the subscription teardown path performs: stopping one
subscription at the transport, or the remote logout call. -/
inductive SubAction where
  | stopCall (s : Nat)
  | logoutCall
deriving DecidableEq

/-- The driver's subscription state: the module-level subscriptions array
(subscriptions are identified by distinct handles, modelled as Nat) and the
trace of teardown actions performed so far, in order. -/
structure SubState where
  subs : List Nat
  trace : List SubAction
deriving DecidableEq

/-- unsubscribe (driver.ts lines 272-279): look up the subscription by
identity (indexOf); if absent, return unchanged; otherwise call stop() on it
and splice it out of the array at the found index. -/
def unsubscribe (s : Nat) (st : SubState) : SubState :=
  match st.subs.findIdx? (fun x => x == s) with
  | none => st
  | some index =>
      { subs := st.subs.eraseIdx index
        trace := st.trace ++ [SubAction.stopCall s] }

/-- The iteration Array.prototype.map performs in unsubscribeAll: the length
is captured before the first step; at each index k below that length, if the
(mutated) array still has an element at k, the callback runs on that element.
The first argument counts down the remaining indices. -/
def unsubscribeAllGo : SubState → Nat → Nat → SubState
  | st, _, 0 => st
  | st, k, n + 1 =>
      let st' :=
        if hk : k < st.subs.length then unsubscribe (st.subs.get ⟨k, hk⟩) st else st
      unsubscribeAllGo st' (k + 1) n

/-- unsubscribeAll (driver.ts lines 282-284): subscriptions.map over the live
array, each step calling unsubscribe, which splices the same array. -/
def unsubscribeAll (st : SubState) : SubState :=
  unsubscribeAllGo st 0 st.subs.length

/-- disconnect (driver.ts lines 128-132): unsubscribeAll() first, then the
remote logout is issued. -/
def disconnect (st : SubState) : SubState :=
  let st' := unsubscribeAll st
  { st' with trace := st'.trace ++ [SubAction.logoutCall] }

/-- The settlement of the transport subscription's ready promise, as observed
by subscribe's executor: still pending, fulfilled with the stream id, or
rejected. -/
inductive ReadyOutcome where
  | pending
  | fulfilled (id : String)
  | rejected (e : String)
deriving DecidableEq

/-- Settlement of the promise subscribe returns. -/
inductive SubSettle where
  | resolvedWith (s : Nat)
  | rejectedWith (e : String)
deriving DecidableEq

/-- The observable outcome of one subscribe call: the subscriptions array
after the synchronous push, and the settlement of the returned promise. -/
structure SubscribeRun where
  subsAfterPush : List Nat
  outerPromise : Option SubSettle
deriving DecidableEq

/-- subscribe (driver.ts lines 245-269): the executor pushes the subscription
onto the array synchronously (line 249), before the ready promise settles;
resolve(subscription) runs only in ready.then's fulfilment continuation (lines
250-253). The executor's reject is never invoked, and ready.then has no
rejection handler, so a rejected ready leaves the returned promise pending
forever. -/
def subscribe (subs : List Nat) (s : Nat) (ready : ReadyOutcome) : SubscribeRun :=
  let pushed := subs ++ [s]
  match ready with
  | ReadyOutcome.fulfilled _ =>
      { subsAfterPush := pushed, outerPromise := some (SubSettle.resolvedWith s) }
  | ReadyOutcome.pending => { subsAfterPush := pushed, outerPromise := none }
  | ReadyOutcome.rejected _ => { subsAfterPush := pushed, outerPromise := none }

-- ===========================================================================
-- Reactive message dispatch (driver.ts lines 300-316).
-- ===========================================================================

/-- A record of the reactive message collection, as the spec's data model
gives it (section 3, MessageChangeEvent): args is either null or the pair
of message payload and auxiliary context. Payloads are treated as values
with no inspected structure, modelled as Nat. -/
structure MessageRecord where
  args : Option (Nat × Nat)
deriving DecidableEq

/-- What the change handler does with the registered callback: a message
delivery callback(null, args[0], args[1]), or an error delivery. -/
inductive CallbackInvocation where
  | message (m extra : Nat)
  | failed (err : String)
deriving DecidableEq

/-- The change handler reactToMessages registers (driver.ts lines 302-315):
re-query the collection by the changed id; if the result is non-empty, take
its first record; a non-null args yields callback(null, args[0], args[1]);
a null args yields an error callback; an empty result yields an error
callback naming the id. Every branch invokes the callback; none throws. -/
def reactToMessagesHandler (query : String → List MessageRecord) (id : String) :
    CallbackInvocation :=
  let changedMessageQuery := query id
  if h : 0 < changedMessageQuery.length then
    let changedMessage := changedMessageQuery.get ⟨0, h⟩
    match changedMessage.args with
    | some a => CallbackInvocation.message a.fst a.snd
    | none => CallbackInvocation.failed "Received message without args"
  else
    CallbackInvocation.failed ("[change] Reactive query at ID " ++ id ++ " without results")

-- ===========================================================================
-- Message preparation and sending (driver.ts lines 375-394).
-- ===========================================================================

/-- Content a message can be built from: a text string or a structured
message object (its fields out of scope, modelled as a value). -/
inductive MessageContent where
  | text (s : String)
  | structured (payload : Nat)
deriving DecidableEq

/-- A prepared message: its content and the optional room id applied to it.
The Message class itself is an external collaborator; only construction and
setRoomId are relied on by the driver. -/
structure Message where
  content : MessageContent
  rid : Option String
deriving DecidableEq

/-- setRoomId on a message: records the room id. -/
def Message.setRoomId (m : Message) (roomId : String) : Message :=
  { m with rid := some roomId }

/-- prepareMessage (driver.ts lines 375-379): build the message from content;
apply setRoomId only when the roomId argument is truthy — in JS both an
absent argument and the empty string are falsy. -/
def prepareMessage (content : MessageContent) (roomId : Option String) : Message :=
  let message : Message := { content := content, rid := none }
  match roomId with
  | some r => if r == "" then message else message.setRoomId r
  | none => message

/-- The content argument of sendMessageByRoomId: a string array, or a single
string or structured message (Array.isArray distinguishes only the array). -/
inductive SendContent where
  | one (content : MessageContent)
  | many (texts : List String)
deriving DecidableEq

/-- sendMessageByRoomId (driver.ts lines 386-394): for an array, each text is
prepared with the roomId argument; for a single string or message object, the
content is prepared without passing roomId. Returns the prepared messages in
order (each is then passed to sendMessage). -/
def sendMessageByRoomId (content : SendContent) (roomId : String) : List Message :=
  match content with
  | SendContent.many texts =>
      texts.map (fun text => prepareMessage (MessageContent.text text) (some roomId))
  | SendContent.one c => [prepareMessage c none]

-- ===========================================================================
-- Theorems
-- ===========================================================================

/-- C1: evaluation of callMethod at a concrete failing input. The claim (and
the source's own doc comment) says the call is routed through the cache iff a
bucket is registered for the method name; the code's ternary is inverted: the
registered method getRoomIdByNameOrId is dispatched to the direct asyncCall,
while the unregistered method sendMessage is routed through cacheCall. -/
theorem callMethod_routes_inverted :
    callMethod (setupMethodCache mcInit) "getRoomIdByNameOrId" ["general"] =
      DispatchTarget.async "getRoomIdByNameOrId" ["general"] ∧
    callMethod (setupMethodCache mcInit) "sendMessage" ["hello"] =
      DispatchTarget.cached "sendMessage" ["hello"] ∧
    mcHas (setupMethodCache mcInit) "getRoomIdByNameOrId" = true ∧
    mcHas (setupMethodCache mcInit) "sendMessage" = false := by
  decide

/-- C2: evaluation of unsubscribeAll at a concrete failing input. With two
active subscriptions, the map over the array being spliced skips the second
one: subscription 2 stays in the active set and its stop() is never invoked,
contradicting the claim that the set is left empty with each subscription
stopped exactly once. -/
theorem unsubscribeAll_two_subs :
    unsubscribeAll { subs := [1, 2], trace := [] } =
      { subs := [2], trace := [SubAction.stopCall 1] } := by
  decide

/-- C6: evaluation of disconnect at a concrete failing input. disconnect does
call unsubscribeAll before issuing the logout, but with two active
subscriptions the unsubscribeAll bug leaves subscription 2 active and
unstopped across the disconnect, contradicting the claim that no subscription
is left dangling. -/
theorem disconnect_leaves_dangling :
    disconnect { subs := [1, 2], trace := [] } =
      { subs := [2], trace := [SubAction.stopCall 1, SubAction.logoutCall] } := by
  decide

/-- C4 counterexample: a connect call given a completion callback, against a
transport whose connected event fires before the timer, uses BOTH outcome
channels — the callback is invoked (with null) and the returned promise also
resolves — refuting the claim that exactly one of the two is ever used. -/
theorem connect_both_channels :
    (runConnect true [ConnEvent.transportConnected]).callbackCalls = [none] ∧
    (runConnect true [ConnEvent.transportConnected]).promiseResult =
      some PromiseSettle.resolvedOk := by
  decide

/-- C4 amended: on timeout exactly one channel is used (the callback when
supplied, otherwise the promise rejects and no callback fires); on a
successful connection the returned promise always resolves, and when a
callback is supplied it is invoked as well, so both channels fire for the
same call. -/
theorem connect_channel_usage (cb : Bool) :
    (runConnect cb [ConnEvent.timerFire]).callbackCalls =
      (if cb then [some connectTimeoutError] else []) ∧
    (runConnect cb [ConnEvent.timerFire]).promiseResult =
      (if cb then none else some (PromiseSettle.rejectedWith connectTimeoutError)) ∧
    (runConnect cb [ConnEvent.transportConnected]).callbackCalls =
      (if cb then [none] else []) ∧
    (runConnect cb [ConnEvent.transportConnected]).promiseResult =
      some PromiseSettle.resolvedOk := by
  cases cb <;> decide

/-- C5: when the transport never emits connected, only the timer fires: the
returned promise rejects with the timeout error and no connected event is
emitted on the lifecycle stream (with or without a callback supplied); when
the connected event fires before the timer, the timer is cancelled and
connected is emitted on the stream. -/
theorem connect_timeout_behaviour :
    (runConnect false [ConnEvent.timerFire]).promiseResult =
      some (PromiseSettle.rejectedWith connectTimeoutError) ∧
    (runConnect false [ConnEvent.timerFire]).emitted = [] ∧
    (runConnect true [ConnEvent.timerFire]).emitted = [] ∧
    (runConnect false [ConnEvent.transportConnected]).timerCleared = true ∧
    (runConnect false [ConnEvent.transportConnected]).emitted = ["connected"] ∧
    (runConnect true [ConnEvent.transportConnected]).timerCleared = true ∧
    (runConnect true [ConnEvent.transportConnected]).emitted = ["connected"] := by
  decide

/-- C7: the change handler of reactToMessages delivers every outcome through
the callback: a first record with non-null args yields the message delivery
callback(null, args[0], args[1]); a first record with null args yields an
error callback with no message payload; an empty re-query yields an error
callback whose message references the changed id. -/
theorem reactToMessages_dispatch (query : String → List MessageRecord) (id : String) :
    (∀ r rest a0 a1, query id = r :: rest → r.args = some (a0, a1) →
        reactToMessagesHandler query id = CallbackInvocation.message a0 a1) ∧
    (∀ r rest, query id = r :: rest → r.args = none →
        reactToMessagesHandler query id =
          CallbackInvocation.failed "Received message without args") ∧
    (query id = [] →
        reactToMessagesHandler query id =
          CallbackInvocation.failed
            ("[change] Reactive query at ID " ++ id ++ " without results")) := by
  refine ⟨?_, ?_, ?_⟩
  · intro r rest a0 a1 hq ha
    simp [reactToMessagesHandler, hq, ha]
  · intro r rest hq ha
    simp [reactToMessagesHandler, hq, ha]
  · intro hq
    simp [reactToMessagesHandler, hq]

/-- C7 witness: the handler applied to a concrete query whose record carries
args (5, 7) delivers callback(null, 5, 7). -/
theorem reactToMessages_dispatch_witness :
    reactToMessagesHandler (fun _ => [{ args := some (5, 7) }]) "abc" =
      CallbackInvocation.message 5 7 :=
  (reactToMessages_dispatch (fun _ => [{ args := some (5, 7) }]) "abc").1
    { args := some (5, 7) } [] 5 7 rfl rfl

/-- C8: when the underlying call rejects with an error, both asyncCall and
cacheCall log that error with the method name and then re-raise it unchanged:
the chain's settlement is the original error, and the error log entry is
present. -/
theorem remote_call_error_reraised {α : Type} (truthy : α → Bool) (method : String)
    (params : String ⊕ List String) (e : String) :
    (asyncCall truthy method params (Except.error e)).fst = Except.error e ∧
    LogEntry.errorLog method e ∈ (asyncCall truthy method params (Except.error e)).snd ∧
    (cacheCall truthy method (Except.error e)).fst = Except.error e ∧
    LogEntry.errorLog method e ∈ (cacheCall truthy method (Except.error e)).snd := by
  refine ⟨rfl, ?_, rfl, ?_⟩ <;> simp [asyncCall, cacheCall, pThen, pCatch]

/-- C9: the promise subscribe returns never rejects; the subscription is
pushed onto the active array synchronously, before readiness is observed; and
when the transport's readiness promise rejects, the returned promise stays
unsettled forever while the subscription remains in the active set. -/
theorem subscribe_never_rejects (subs : List Nat) (s : Nat) (ready : ReadyOutcome) :
    (subscribe subs s ready).subsAfterPush = subs ++ [s] ∧
    (∀ e, (subscribe subs s ready).outerPromise ≠ some (SubSettle.rejectedWith e)) ∧
    (∀ err, ready = ReadyOutcome.rejected err →
      (subscribe subs s ready).outerPromise = none ∧
        s ∈ (subscribe subs s ready).subsAfterPush) := by
  refine ⟨?_, ?_, ?_⟩
  · cases ready <;> rfl
  · intro e
    cases ready <;> simp [subscribe]
  · intro err hr
    subst hr
    simp [subscribe]

/-- C9 witness: with one prior subscription and a readiness rejection, the
returned promise is unsettled and the new subscription is in the active set. -/
theorem subscribe_never_rejects_witness :
    (subscribe [7] 9 (ReadyOutcome.rejected "boom")).outerPromise = none ∧
      9 ∈ (subscribe [7] 9 (ReadyOutcome.rejected "boom")).subsAfterPush :=
  (subscribe_never_rejects [7] 9 (ReadyOutcome.rejected "boom")).2.2 "boom" rfl

/-- C10 counterexample: with array content and the empty string as roomId, the
prepared message does NOT get its room id set (the JS truthiness test
if (roomId) fails on the empty string), refuting the claim that every
prepared message of the array branch carries the given roomId. -/
theorem sendMessageByRoomId_empty_roomId :
    ¬ (∀ m ∈ sendMessageByRoomId (SendContent.many ["hi"]) "", m.rid = some "") := by
  decide

/-- C10 amended: for a non-empty roomId, every message prepared from array
content has its rid set to that roomId; for single (string or structured)
content, the message is prepared without the roomId argument, so its rid is
left unset. -/
theorem sendMessageByRoomId_rid (texts : List String) (roomId : String)
    (hr : roomId ≠ "") (c : MessageContent) :
    (∀ m ∈ sendMessageByRoomId (SendContent.many texts) roomId, m.rid = some roomId) ∧
    sendMessageByRoomId (SendContent.one c) roomId =
      [{ content := c, rid := none }] := by
  constructor
  · intro m hm
    simp only [sendMessageByRoomId, List.mem_map] at hm
    obtain ⟨t, _, rfl⟩ := hm
    simp [prepareMessage, Message.setRoomId, hr]
  · rfl

/-- C10 witness: the amended theorem applied at concrete inputs. -/
theorem sendMessageByRoomId_rid_witness :
    (∀ m ∈ sendMessageByRoomId (SendContent.many ["a", "b"]) "general",
        m.rid = some "general") ∧
    sendMessageByRoomId (SendContent.one (MessageContent.text "x")) "general" =
      [{ content := MessageContent.text "x", rid := none }] :=
  sendMessageByRoomId_rid ["a", "b"] "general" (by decide) (MessageContent.text "x")

-- Helper lemmas for the cache de-duplication proof (C3).

/-- Mapping the overwrite-at-matching-position function twice is the same as
mapping it once, provided the replacement itself matches the predicate. -/
theorem mapSet_idem {α : Type} (p : α → Bool) (c : α) (hc : p c = true) (l : List α) :
    (l.map (fun q => if p q then c else q)).map (fun q => if p q then c else q) =
      l.map (fun q => if p q then c else q) := by
  induction l with
  | nil => rfl
  | cons a t ih =>
      by_cases h : p a
      · simp [h, hc, ih]
      · simp [h, ih]

/-- If find? succeeds on a list, then after mapping the overwrite-at-matching-
position function, find? returns the replacement. -/
theorem find_mapSet {α : Type} (p : α → Bool) (c : α) (hc : p c = true) (l : List α)
    (q0 : α) (h : l.find? p = some q0) :
    (l.map (fun q => if p q then c else q)).find? p = some c := by
  induction l with
  | nil => simp at h
  | cons a t ih =>
      by_cases hp : p a
      · simp [hp, hc]
      · rw [List.find?_cons_of_neg _ hp] at h
        rw [List.map_cons, if_neg hp, List.find?_cons_of_neg _ hp]
        exact ih h

/-- Overwriting the bucket of a state whose bucket list already carries that
overwrite is the identity. -/
theorem setBucket_map_self (bk : List (String × MCBucket)) (np : Nat)
    (rl : List (String × String)) (m : String) (b : MCBucket) :
    setBucket ⟨bk.map (fun q => if q.fst == m then (m, b) else q), np, rl⟩ m b =
      ⟨bk.map (fun q => if q.fst == m then (m, b) else q), np, rl⟩ := by
  unfold setBucket
  congr 1
  exact mapSet_idem (fun q => q.fst == m) (m, b) (by simp) bk

/-- After bucketPut stores a pending promise under a key, bucketGet on that key
at the same instant is a hit returning exactly the stored entry and leaving the
bucket unchanged (capacity at least one, so the fresh entry is not the one
evicted). -/
theorem bucketPut_get (b : MCBucket) (k : String) (pid now : Nat) (hcap : 1 ≤ b.capacity) :
    bucketGet (bucketPut b k pid now) k now =
      some ({ key := k, promise := pid, insertedAt := now, touchedAt := now },
            bucketPut b k pid now) := by
  have key_lemma : ∀ X : List CacheEntry, (∀ e ∈ X, (e.key != k) = true) →
      bucketGet
          { capacity := b.capacity, maxAgeMs := b.maxAgeMs,
            entries :=
              { key := k, promise := pid, insertedAt := now, touchedAt := now } :: X } k now =
        some ({ key := k, promise := pid, insertedAt := now, touchedAt := now },
              { capacity := b.capacity, maxAgeMs := b.maxAgeMs,
                entries :=
                  { key := k, promise := pid, insertedAt := now, touchedAt := now } :: X }) := by
    intro X hX
    have hfind0 :
        List.find? (fun e => e.key == k)
            ({ key := k, promise := pid, insertedAt := now, touchedAt := now } :: X) =
          some { key := k, promise := pid, insertedAt := now, touchedAt := now } :=
      List.find?_cons_of_pos _ (by simp)
    have hfresh :
        entryFresh { key := k, promise := pid, insertedAt := now, touchedAt := now }
            b.maxAgeMs now = true := by
      simp [entryFresh]
    have hfc :
        List.filter (fun e2 => e2.key != k)
            ({ key := k, promise := pid, insertedAt := now, touchedAt := now } :: X) = X := by
      rw [List.filter_cons_of_neg]
      · exact List.filter_eq_self.mpr hX
      · simp
    simp [bucketGet, hfind0, hfresh, hfc]
  obtain ⟨X, hXeq, hXk⟩ :
      ∃ X : List CacheEntry,
        bucketPut b k pid now =
          { capacity := b.capacity, maxAgeMs := b.maxAgeMs,
            entries :=
              { key := k, promise := pid, insertedAt := now, touchedAt := now } :: X } ∧
          ∀ e ∈ X, (e.key != k) = true := by
    have hfilter : ∀ e ∈ b.entries.filter (fun e => e.key != k), (e.key != k) = true :=
      fun e he => (List.mem_filter.mp he).2
    by_cases hlen :
        b.capacity <
          ({ key := k, promise := pid, insertedAt := now, touchedAt := now } ::
            b.entries.filter (fun e => e.key != k)).length
    · have hne : b.entries.filter (fun e => e.key != k) ≠ [] := by
        intro h0
        rw [h0] at hlen
        simp at hlen
        omega
      obtain ⟨r, R', hrR⟩ := List.exists_cons_of_ne_nil hne
      refine ⟨(b.entries.filter (fun e => e.key != k)).dropLast, ?_, ?_⟩
      · unfold bucketPut
        rw [if_pos hlen, hrR, List.dropLast_cons₂]
      · intro e he
        exact hfilter e (List.mem_of_mem_dropLast he)
    · refine ⟨b.entries.filter (fun e => e.key != k), ?_, hfilter⟩
      unfold bucketPut
      rw [if_neg hlen]
  rw [hXeq]
  exact key_lemma X hXk

/-- A missing (or expired) entry makes mcCall issue exactly one remote
invocation and store the pending promise; the resulting state is a fixed point
of mcCall at the same method, key and instant, every further call returning the
same promise with no further remote invocation. -/
theorem mcCall_fixed (st : MCState) (m k : String) (now : Nat) (b : MCBucket)
    (hfind : st.buckets.find? (fun q => q.fst == m) = some (m, b))
    (hcap : 1 ≤ b.capacity)
    (hmiss : bucketGet b k now = none) :
    mcCall st m k now =
      (st.nextPromise,
        { setBucket st m (bucketPut b k st.nextPromise now) with
            nextPromise := st.nextPromise + 1,
            remoteLog := st.remoteLog ++ [(m, k)] }) ∧
    mcCall
        { setBucket st m (bucketPut b k st.nextPromise now) with
            nextPromise := st.nextPromise + 1,
            remoteLog := st.remoteLog ++ [(m, k)] } m k now =
      (st.nextPromise,
        { setBucket st m (bucketPut b k st.nextPromise now) with
            nextPromise := st.nextPromise + 1,
            remoteLog := st.remoteLog ++ [(m, k)] }) := by
  constructor
  · simp only [mcCall, hfind, hmiss]
  · have hfind1 :
        ({ setBucket st m (bucketPut b k st.nextPromise now) with
            nextPromise := st.nextPromise + 1,
            remoteLog := st.remoteLog ++ [(m, k)] } : MCState).buckets.find?
            (fun q => q.fst == m) =
          some (m, bucketPut b k st.nextPromise now) :=
      find_mapSet (fun q => q.fst == m) (m, bucketPut b k st.nextPromise now) (by simp)
        st.buckets (m, b) hfind
    simp only [mcCall, hfind1, bucketPut_get b k st.nextPromise now hcap]
    exact congrArg (fun s => (st.nextPromise, s))
      (setBucket_map_self st.buckets (st.nextPromise + 1) (st.remoteLog ++ [(m, k)]) m
        (bucketPut b k st.nextPromise now))

/-- Iterating mcCall from a fixed point returns the same promise every time and
leaves the state unchanged. -/
theorem mcCallN_fixed (m k : String) (now p : Nat) :
    ∀ (n : Nat) (st : MCState), mcCall st m k now = (p, st) →
      mcCallN n st m k now = (List.replicate n p, st) := by
  intro n
  induction n with
  | zero => intro st _; rfl
  | succ n ih =>
      intro st h
      simp only [mcCallN, h, ih st h, List.replicate]

/-- C3: for a method with a registered cache bucket (of positive capacity) and
a key that is absent or expired, any number of call invocations issued before
the first settles trigger exactly one underlying remote invocation — the
pending promise is stored as the cache entry — and every caller receives the
very same promise, hence the identical settlement, value or error, under any
settlement assignment. -/
theorem cacheCall_dedup (st : MCState) (m k : String) (now : Nat) (b : MCBucket) (n : Nat)
    (hfind : st.buckets.find? (fun q => q.fst == m) = some (m, b))
    (hcap : 1 ≤ b.capacity)
    (hmiss : bucketGet b k now = none) :
    (mcCallN (n + 1) st m k now).fst = List.replicate (n + 1) st.nextPromise ∧
    (mcCallN (n + 1) st m k now).snd.remoteLog = st.remoteLog ++ [(m, k)] ∧
    ∀ settle : Nat → Except String Nat,
      (mcCallN (n + 1) st m k now).fst.map settle =
        List.replicate (n + 1) (settle st.nextPromise) := by
  obtain ⟨h1, h2⟩ := mcCall_fixed st m k now b hfind hcap hmiss
  have hN := mcCallN_fixed m k now st.nextPromise n _ h2
  have hfull :
      mcCallN (n + 1) st m k now =
        (st.nextPromise :: List.replicate n st.nextPromise,
          { setBucket st m (bucketPut b k st.nextPromise now) with
              nextPromise := st.nextPromise + 1,
              remoteLog := st.remoteLog ++ [(m, k)] }) := by
    simp only [mcCallN, h1, hN]
  refine ⟨?_, ?_, ?_⟩
  · rw [hfull, List.replicate_succ]
  · rw [hfull]
  · intro settle
    rw [hfull, List.replicate_succ]
    simp [List.map_replicate]

/-- C3 witness: a freshly created room-id bucket, three concurrent callers for
the key general before any settlement: one remote invocation, all three callers
get promise 0. -/
theorem cacheCall_dedup_witness :
    (mcCallN (2 + 1) (mcCreate mcInit "getRoomIdByNameOrId" 10 300000)
        "getRoomIdByNameOrId" "general" 0).fst =
      List.replicate (2 + 1)
        (mcCreate mcInit "getRoomIdByNameOrId" 10 300000).nextPromise ∧
    (mcCallN (2 + 1) (mcCreate mcInit "getRoomIdByNameOrId" 10 300000)
        "getRoomIdByNameOrId" "general" 0).snd.remoteLog =
      (mcCreate mcInit "getRoomIdByNameOrId" 10 300000).remoteLog ++
        [("getRoomIdByNameOrId", "general")] ∧
    ∀ settle : Nat → Except String Nat,
      (mcCallN (2 + 1) (mcCreate mcInit "getRoomIdByNameOrId" 10 300000)
          "getRoomIdByNameOrId" "general" 0).fst.map settle =
        List.replicate (2 + 1)
          (settle (mcCreate mcInit "getRoomIdByNameOrId" 10 300000).nextPromise) :=
  cacheCall_dedup (mcCreate mcInit "getRoomIdByNameOrId" 10 300000)
    "getRoomIdByNameOrId" "general" 0 { capacity := 10, maxAgeMs := 300000, entries := [] } 2
    (by decide) (by decide) rfl
